import Mathlib

/-!
Verification development for the Data_Analysis-Tool repository.

The numeric core of the repository consists of two components:

* OutlierDetector.detect_outliers (src/outlier_detector.py): selects the
  numeric columns of a DataFrame and keeps the rows flagged by a z-score or
  IQR rule, printing a diagnostic and returning an empty frame for an
  unknown method.
* FeatureAnalyzer.feature_importance (src/feature_analyzer.py): validates a
  target column, builds the numeric feature matrix, one-hot encodes it,
  trains a seeded random-forest regressor through the external scikit-learn
  library, sorts the importance scores descending, renders a bar chart of
  the top 10, and returns None.

The embedding below is column-major: a table is an ordered list of named
columns; numeric cells are rationals (the repository uses IEEE doubles; the
claims under study are order/selection properties for which exact rational
arithmetic is the faithful idealisation, and the one genuinely IEEE-specific
behaviour, NaN comparisons on a zero-variance column, is modelled
explicitly in zFlag). Effects (printed diagnostics, the rendered chart, the
returned value) are modelled as explicit data.
-/

set_option linter.unusedVariables false

namespace DA

/-- A column of a tabular dataset: either numeric (modelled over the
rationals) or categorical/text. -/
inductive ColData where
  | num (vals : List ℚ)
  | cat (vals : List String)
deriving DecidableEq

/-- A table: ordered, named columns (the pandas DataFrame of the repository,
stored column-major; rows are positionally aligned across columns, so every
column of a well-formed table has the same length). -/
abbrev Table := List (String × ColData)

/-- Whether a column has numeric dtype (the select_dtypes and np.issubdtype
checks of the sources). -/
def isNum : ColData → Bool
  | .num _ => true
  | .cat _ => false

def colLen : ColData → Nat
  | .num vs => vs.length
  | .cat vs => vs.length

/-- Row count of a table; in a DataFrame all columns have equal length, so
it is read from the first column. -/
def nrows : Table → Nat
  | [] => 0
  | c :: _ => colLen c.2

/-- df.select_dtypes(include=[number]): the numeric subview, with column
order preserved from the source table. -/
def numericPart (df : Table) : List (String × List ℚ) :=
  df.filterMap (fun c => match c.2 with
    | .num vs => some (c.1, vs)
    | .cat _ => none)

/-- Row count of a numeric subview. -/
def numRows : List (String × List ℚ) → Nat
  | [] => 0
  | c :: _ => c.2.length

/-- Row i of a numeric subview: the i-th cell of every column, in column
order. -/
def rowAt (cols : List (String × List ℚ)) (i : Nat) : List ℚ :=
  cols.map (fun c => c.2.getD i 0)

/-- The rows of a numeric subview, in positional order. -/
def rowsOf (cols : List (String × List ℚ)) : List (List ℚ) :=
  (List.range (numRows cols)).map (rowAt cols)

/-- Positions at which a boolean row mask is true, in increasing order. -/
def trueIdx (mask : List Bool) : List Nat :=
  (List.range mask.length).filter (fun i => mask.getD i false)

/-- Boolean-mask row selection df[mask] applied to one column: keep the
entries at the true positions of the mask, in order. -/
def applyMask (mask : List Bool) (vs : List ℚ) : List ℚ :=
  (trueIdx mask).map (fun i => vs.getD i 0)

/-- Boolean-mask row selection applied to a whole numeric subview. -/
def maskTable (mask : List Bool) (cols : List (String × List ℚ)) :
    List (String × List ℚ) :=
  cols.map (fun c => (c.1, applyMask mask c.2))

/-- Population mean of a column (scipy stats.zscore defaults to ddof = 0,
the population convention). -/
def colMean (vs : List ℚ) : ℚ := vs.sum / vs.length

/-- Population variance of a column. The z-score of a cell v is
(v - mean) / sqrt(variance); the variance is kept rational and the square
root is taken only in specification statements. -/
def colVar (vs : List ℚ) : ℚ :=
  ((vs.map (fun v => (v - colMean vs) ^ 2)).sum) / vs.length

/-- Whether the absolute z-score of cell v strictly exceeds t, exactly as
the IEEE comparison np.abs(stats.zscore(numeric_df)) > threshold evaluates
it: a zero-variance column gives NaN z-scores, and NaN > t is false for
every t; otherwise |v - mean| / sqrt(var) is finite and the comparison is
squared so as to stay inside ℚ (for t < 0 it holds whenever the z-score is
defined, since an absolute value is nonnegative). The bridge to the
real-valued z-score condition is the lemma zFlag_iff_real below. -/
def zFlag (vs : List ℚ) (t v : ℚ) : Bool :=
  decide (0 < colVar vs) &&
    (decide (t < 0) || decide (t ^ 2 * colVar vs < (v - colMean vs) ^ 2))

/-- pandas Series.quantile(q) with the default linear interpolation: with s
the ascending sort of the column and h = q * (n - 1), the quantile is
s[k] + (h - k) * (s[k+1] - s[k]) where k = floor h. (For an empty column
pandas yields NaN; the code under study never consumes that case, because
an empty column yields an empty row mask.) -/
def quantile (vs : List ℚ) (q : ℚ) : ℚ :=
  let s := vs.insertionSort (· ≤ ·)
  let h : ℚ := q * ((vs.length : ℚ) - 1)
  let k : Nat := (⌊h⌋).toNat
  s.getD k 0 + (h - (k : ℚ)) * (s.getD (k + 1) 0 - s.getD k 0)

/-- Whether cell v lies strictly outside the IQR fence
[Q1 - 1.5 * IQR, Q3 + 1.5 * IQR] of its column, as in the source comparison
(numeric_df < (Q1 - 1.5 * IQR)) | (numeric_df > (Q3 + 1.5 * IQR)). -/
def iqrFlag (vs : List ℚ) (v : ℚ) : Bool :=
  let Q1 := quantile vs (1 / 4)
  let Q3 := quantile vs (3 / 4)
  let IQR := Q3 - Q1
  decide (v < Q1 - 3 / 2 * IQR) || decide (Q3 + 3 / 2 * IQR < v)

/-- The row mask (cellwise comparison).any(axis=1): row i is flagged when at
least one numeric column flags its cell in row i. -/
def anyFlagMask (flag : List ℚ → ℚ → Bool) (cols : List (String × List ℚ)) :
    List Bool :=
  (List.range (numRows cols)).map
    (fun i => cols.any (fun c => flag c.2 (c.2.getD i 0)))

/-- Observable outcome of detect_outliers: the returned frame (restricted to
the numeric columns) and the diagnostics printed to stdout. -/
structure DetectResult where
  outliers : List (String × List ℚ)
  printed : List String
deriving DecidableEq

/-- OutlierDetector.detect_outliers of src/outlier_detector.py. The zscore
branch keeps the rows where some cell has |z| > threshold; the iqr branch
keeps the rows where some cell falls outside the 1.5-IQR fence (the
threshold argument is not consulted there); any other method prints a
diagnostic and leaves the initial empty frame as the result. The input
table is not written to on any path (the model is a pure function of df). -/
def detect_outliers (df : Table) (method : String) (threshold : ℚ) :
    DetectResult :=
  let nd := numericPart df
  if method = "zscore" then
    ⟨maskTable (anyFlagMask (fun vs v => zFlag vs threshold v) nd) nd, []⟩
  else if method = "iqr" then
    ⟨maskTable (anyFlagMask iqrFlag nd) nd, []⟩
  else
    ⟨[], ["Invalid method. Use zscore or iqr. "]⟩

/-! Embedding of FeatureAnalyzer.feature_importance (src/feature_analyzer.py). -/

/-- Observable outcome of one call of feature_importance: the diagnostics
printed, the feature-importance frame computed inside the call (if the call
got that far), whether plt.show() was reached (a bar chart of the head of
the frame is rendered), and the value returned to the caller. The Python
function is annotated -> None and every return statement in it is bare, so
the ret field is none on every path. -/
structure FIRun where
  printed : List String
  ranking : Option (List (String × ℚ))
  chartShown : Bool
  ret : Option (List (String × ℚ))
deriving DecidableEq

/-- Modelled from the spec: the external train/test-split plus
bagged-ensemble regressor capability of scikit-learn (train_test_split and
RandomForestRegressor.fit together with feature_importances_), which is not
part of this repository. Per the spec it is a deterministic function of the
random seeds and the data, producing one importance score per feature; when
a seed is absent the library draws on ambient RNG state, modelled by the
entropy argument. run takes: the split seed, the model seed, the ambient
entropy, the encoded feature columns X, and the target column y. -/
structure EnsembleLib where
  run : Option Nat → Option Nat → Nat → List (String × List ℚ) → List ℚ → List ℚ
  run_length : ∀ s m e X y, (run s m e X y).length = X.length
  seeded_deterministic : ∀ s m e e' X y,
    run (some s) (some m) e X y = run (some s) (some m) e' X y

/-- Column names of a table, in order (df.columns). -/
def colNames (df : Table) : List String := df.map Prod.fst

/-- np.issubdtype(df[target].dtype, np.number): the dtype of the first
column named target is numeric. -/
def targetDtypeIsNum (df : Table) (target : String) : Bool :=
  match df.find? (fun c => c.1 == target) with
  | some c => isNum c.2
  | none => false

/-- y = df[target], for a numeric target column. -/
def targetVals (df : Table) (target : String) : List ℚ :=
  match df.find? (fun c => c.1 == target) with
  | some (_, .num vs) => vs
  | _ => []

/-- X = df[numeric_columns].drop(columns=[target_column]): the numeric
columns of the table, in order, with the target column removed. -/
def featureCols (df : Table) (target : String) : Table :=
  (df.filter (fun c => isNum c.2)).filter (fun c => !(c.1 == target))

/-- pd.get_dummies: numeric columns pass through unchanged and keep their
order; every categorical column is expanded into one binary indicator
column per distinct value, and the indicator columns are appended after the
numeric ones. (pandas lists the categories of one column in sorted order;
this model lists the distinct values in List.dedup order. The difference is
unobservable in this repository, because the frame the source passes to
get_dummies was already restricted to numeric columns, on which get_dummies
is the identity.) -/
def get_dummies (cols : Table) : List (String × List ℚ) :=
  (cols.filterMap (fun c => match c.2 with
    | .num vs => some (c.1, vs)
    | .cat _ => none))
  ++ (cols.map (fun c => match c.2 with
    | .num _ => []
    | .cat vs => vs.dedup.map (fun v =>
        (c.1 ++ "_" ++ v, vs.map (fun x => if x = v then (1 : ℚ) else 0))))).flatten

/-- DataFrame.sort_values(importance, ascending=False), modelled as an
insertion sort by descending score. (pandas defaults to an unstable
quicksort, so the relative order of tied scores is unspecified there; the
theorems below use only the sortedness and the multiset of entries, which
every sort kind guarantees.) -/
def sortDesc (l : List (String × ℚ)) : List (String × ℚ) :=
  l.insertionSort (fun a b => b.2 ≤ a.2)

/-- FeatureAnalyzer.feature_importance of src/feature_analyzer.py. The three
validation failures print a diagnostic and return; otherwise X is the
numeric feature frame (empty when it has no columns or no rows, the pandas
DataFrame.empty test), get_dummies is applied to it, the external library
is invoked with random_state = 42 for both the split and the model, the
scores are paired with the columns of X and sorted descending, a chart of
the head of that frame is rendered, and None is returned. -/
def feature_importance (df : Table) (target : String) (lib : EnsembleLib)
    (entropy : Nat) : FIRun :=
  if target ∉ colNames df then
    ⟨["Target Column " ++ target ++ " not founded in the dataset."],
      none, false, none⟩
  else if ¬ targetDtypeIsNum df target = true then
    ⟨["Error: Target Column " ++ target ++ " must be numeric."],
      none, false, none⟩
  else
    let Xpre := featureCols df target
    let y := targetVals df target
    if Xpre = [] ∨ nrows df = 0 then
      ⟨["Error: No numberic features founded for analysis"], none, false, none⟩
    else
      let X := get_dummies Xpre
      let scores := lib.run (some 42) (some 42) entropy X y
      let fi := sortDesc ((X.map Prod.fst).zip scores)
      ⟨[], some fi, true, none⟩

/-! Structural lemmas about boolean-mask row selection. -/

lemma mem_trueIdx (mask : List Bool) (j : Nat) :
    j ∈ trueIdx mask ↔ j < mask.length ∧ mask.getD j false = true := by
  simp [trueIdx, List.mem_filter, List.mem_range]

lemma length_anyFlagMask (flag : List ℚ → ℚ → Bool)
    (cols : List (String × List ℚ)) :
    (anyFlagMask flag cols).length = numRows cols := by
  simp [anyFlagMask]

lemma anyFlagMask_getD (flag : List ℚ → ℚ → Bool)
    (cols : List (String × List ℚ)) (i : Nat) (hi : i < numRows cols) :
    (anyFlagMask flag cols).getD i false
      = cols.any (fun c => flag c.2 (c.2.getD i 0)) := by
  unfold anyFlagMask
  rw [List.getD_eq_getElem _ _ (by simpa using hi), List.getElem_map,
    List.getElem_range]

lemma applyMask_length (mask : List Bool) (vs : List ℚ) :
    (applyMask mask vs).length = (trueIdx mask).length := by
  simp [applyMask]

lemma applyMask_getD (mask : List Bool) (vs : List ℚ) (k : Nat)
    (hk : k < (trueIdx mask).length) :
    (applyMask mask vs).getD k 0 = vs.getD ((trueIdx mask).getD k 0) 0 := by
  unfold applyMask
  rw [List.getD_eq_getElem _ _ (by simpa using hk), List.getElem_map,
    List.getD_eq_getElem _ _ hk]

lemma numRows_maskTable (mask : List Bool) (cols : List (String × List ℚ))
    (hne : cols ≠ []) :
    numRows (maskTable mask cols) = (trueIdx mask).length := by
  cases cols with
  | nil => exact absurd rfl hne
  | cons c cs => simp [maskTable, numRows, applyMask_length]

/-- Selecting rows by a mask commutes with reading the table row-wise: the
rows of the filtered table are exactly the input rows at the true positions
of the mask, in order. -/
lemma rowsOf_maskTable (mask : List Bool) (cols : List (String × List ℚ))
    (hne : cols ≠ []) :
    rowsOf (maskTable mask cols) = (trueIdx mask).map (rowAt cols) := by
  unfold rowsOf
  rw [numRows_maskTable mask cols hne]
  apply List.ext_getElem
  · simp
  · intro k h1 h2
    have hk : k < (trueIdx mask).length := by simpa using h1
    rw [List.getElem_map, List.getElem_range, List.getElem_map]
    unfold rowAt
    rw [maskTable, List.map_map]
    apply List.map_inj_left.mpr
    intro c hc
    simp only [Function.comp_apply]
    rw [applyMask_getD mask c.2 k hk, List.getD_eq_getElem _ _ hk]

lemma rowAt_mem_rowsOf (cols : List (String × List ℚ)) (i : Nat)
    (hi : i < numRows cols) : rowAt cols i ∈ rowsOf cols := by
  unfold rowsOf
  exact List.mem_map.mpr ⟨i, List.mem_range.mpr hi, rfl⟩

/-- Characterisation of row membership in the mask-filtered table built from
a per-cell flag: input row i appears among the result rows iff some column
flags its cell in row i. (The flag of a cell depends only on the column and
the cell value, so a duplicate of a flagged row is itself flagged.) -/
lemma mem_rows_anyFlag (flag : List ℚ → ℚ → Bool)
    (cols : List (String × List ℚ)) (hne : cols ≠ []) (i : Nat)
    (hi : i < numRows cols) :
    rowAt cols i ∈ rowsOf (maskTable (anyFlagMask flag cols) cols)
      ↔ ∃ c ∈ cols, flag c.2 (c.2.getD i 0) = true := by
  rw [rowsOf_maskTable _ _ hne, List.mem_map]
  constructor
  · rintro ⟨j, hj, hrow⟩
    rw [mem_trueIdx, length_anyFlagMask] at hj
    obtain ⟨hjn, hflag⟩ := hj
    rw [anyFlagMask_getD flag cols j hjn, List.any_eq_true] at hflag
    obtain ⟨c, hc, hcf⟩ := hflag
    refine ⟨c, hc, ?_⟩
    have := List.map_inj_left.mp hrow c hc
    rwa [this] at hcf
  · rintro ⟨c, hc, hcf⟩
    refine ⟨i, ?_, rfl⟩
    rw [mem_trueIdx, length_anyFlagMask]
    refine ⟨hi, ?_⟩
    rw [anyFlagMask_getD flag cols i hi, List.any_eq_true]
    exact ⟨c, hc, hcf⟩

lemma maskTable_rows_subset (mask : List Bool)
    (cols : List (String × List ℚ)) (hmask : mask.length = numRows cols) :
    ∀ r ∈ rowsOf (maskTable mask cols), r ∈ rowsOf cols := by
  cases cols with
  | nil => intro r hr; simp [maskTable, rowsOf, numRows] at hr
  | cons c cs =>
    intro r hr
    rw [rowsOf_maskTable _ _ (by simp)] at hr
    obtain ⟨j, hj, rfl⟩ := List.mem_map.mp hr
    rw [mem_trueIdx] at hj
    exact rowAt_mem_rowsOf _ j (hmask ▸ hj.1)

lemma rowsOf_maskTable_sublist (mask : List Bool)
    (cols : List (String × List ℚ)) (hmask : mask.length = numRows cols) :
    (rowsOf (maskTable mask cols)).Sublist (rowsOf cols) := by
  cases cols with
  | nil => simp [maskTable, rowsOf, numRows]
  | cons c cs =>
    rw [rowsOf_maskTable mask (c :: cs) (by simp)]
    unfold rowsOf
    rw [← hmask]
    exact (List.filter_sublist _).map _

/-! Bridge from the rational comparison of zFlag to the real-valued z-score
of the specification. -/

lemma colVar_nonneg (vs : List ℚ) : 0 ≤ colVar vs := by
  unfold colVar
  apply div_nonneg
  · apply List.sum_nonneg
    intro x hx
    simp only [List.mem_map] at hx
    obtain ⟨v, -, rfl⟩ := hx
    positivity
  · positivity

/-- zFlag computes exactly the IEEE truth value of
np.abs((v - mean) / stddev) > t with stddev the real square root of the
population variance: the comparison holds iff the stddev is positive (a
zero-variance column yields NaN, which never compares greater) and the
absolute z-score strictly exceeds t. -/
lemma zFlag_iff_real (vs : List ℚ) (t v : ℚ) :
    zFlag vs t v = true ↔
      0 < Real.sqrt (colVar vs : ℝ) ∧
        (t : ℝ) < |(v : ℝ) - (colMean vs : ℝ)| / Real.sqrt (colVar vs : ℝ) := by
  unfold zFlag
  simp only [Bool.and_eq_true, Bool.or_eq_true, decide_eq_true_eq]
  by_cases hv : 0 < colVar vs
  · have hV : (0 : ℝ) < (colVar vs : ℝ) := by exact_mod_cast hv
    have hs : 0 < Real.sqrt (colVar vs : ℝ) := Real.sqrt_pos.mpr hV
    simp only [hv, true_iff, hs, true_and]
    by_cases ht : t < 0
    · have htR : (t : ℝ) < 0 := by exact_mod_cast ht
      simp only [ht, true_or, true_iff]
      exact lt_of_lt_of_le htR
        (div_nonneg (abs_nonneg _) (le_of_lt hs))
    · push_neg at ht
      have htR : (0 : ℝ) ≤ (t : ℝ) := by exact_mod_cast ht
      simp only [not_lt.mpr ht, false_or]
      rw [lt_div_iff₀ hs]
      rw [mul_self_lt_mul_self_iff
        (mul_nonneg htR (Real.sqrt_nonneg _)) (abs_nonneg _)]
      rw [abs_mul_abs_self]
      have hss : Real.sqrt (colVar vs : ℝ) * Real.sqrt (colVar vs : ℝ)
          = (colVar vs : ℝ) := Real.mul_self_sqrt (le_of_lt hV)
      constructor
      · intro h
        have hR : (t : ℝ) ^ 2 * (colVar vs : ℝ)
            < ((v : ℝ) - (colMean vs : ℝ)) ^ 2 := by exact_mod_cast h
        nlinarith [hR, hss]
      · intro h
        have hR : (t : ℝ) ^ 2 * (colVar vs : ℝ)
            < ((v : ℝ) - (colMean vs : ℝ)) ^ 2 := by nlinarith [h, hss]
        exact_mod_cast hR
  · have hV : ¬ (0 : ℝ) < (colVar vs : ℝ) := by exact_mod_cast hv
    have : ¬ 0 < Real.sqrt (colVar vs : ℝ) := by
      rw [Real.sqrt_pos]; exact hV
    simp [hv, this]

/-! Unfolding lemmas for the three branches of detect_outliers. -/

lemma detect_outliers_zscore_eq (df : Table) (t : ℚ) :
    detect_outliers df "zscore" t
      = ⟨maskTable (anyFlagMask (fun vs v => zFlag vs t v) (numericPart df))
          (numericPart df), []⟩ := rfl

lemma detect_outliers_iqr_eq (df : Table) (t : ℚ) :
    detect_outliers df "iqr" t
      = ⟨maskTable (anyFlagMask iqrFlag (numericPart df))
          (numericPart df), []⟩ := rfl

/-! Concrete tables used by witnesses and counterexamples. -/

/-- The five-row table of the specification scenarios: a numeric column with
a single extreme value, a categorical column, and a constant (zero-variance)
numeric column. -/
def dfW : Table :=
  [("x", .num [1, 1, 1, 1, 100]),
   ("k", .cat ["a", "b", "a", "b", "a"]),
   ("c", .num [5, 5, 5, 5, 5])]

/-! Claim theorems for OutlierDetector.detect_outliers. -/

/-- C1: for a table with at least one numeric column, a row of the numeric
subview appears in the zscore result iff at least one of its numeric cells
has |value - mean| / stddev > t, with population mean and standard
deviation (the real square root of the population variance) per column; the
positivity conjunct on the standard deviation records that cells of a
zero-variance column (whose z-scores are NaN) never satisfy the comparison,
so such a column alone cannot flag a row. -/
theorem detect_outliers_zscore_iff (df : Table) (t : ℚ) (i : Nat)
    (hne : numericPart df ≠ []) (hi : i < numRows (numericPart df)) :
    rowAt (numericPart df) i ∈ rowsOf (detect_outliers df "zscore" t).outliers
      ↔ ∃ c ∈ numericPart df,
          0 < Real.sqrt (colVar c.2 : ℝ) ∧
            (t : ℝ) < |(c.2.getD i 0 : ℝ) - (colMean c.2 : ℝ)|
              / Real.sqrt (colVar c.2 : ℝ) := by
  rw [detect_outliers_zscore_eq]
  rw [mem_rows_anyFlag _ _ hne i hi]
  simp only [zFlag_iff_real]

/-- Witness for C1 on the specification table dfW at threshold 1: the
hypotheses hold and row 4 (the row containing the extreme value 100, whose
z-score is exactly 2) is characterised as stated. -/
theorem detect_outliers_zscore_iff_witness :
    numericPart dfW ≠ [] ∧ 4 < numRows (numericPart dfW) ∧
      (rowAt (numericPart dfW) 4
          ∈ rowsOf (detect_outliers dfW "zscore" 1).outliers
        ↔ ∃ c ∈ numericPart dfW,
            0 < Real.sqrt (colVar c.2 : ℝ) ∧
              ((1 : ℚ) : ℝ) < |(c.2.getD 4 0 : ℝ) - (colMean c.2 : ℝ)|
                / Real.sqrt (colVar c.2 : ℝ)) :=
  ⟨by decide, by decide,
    detect_outliers_zscore_iff dfW 1 4 (by decide) (by decide)⟩

/-- C2: for a table with at least one numeric column, a row of the numeric
subview appears in the iqr result iff at least one of its numeric cells lies
strictly outside [Q1 - 1.5 * IQR, Q3 + 1.5 * IQR] of its column, with Q1 and
Q3 the linearly interpolated 25th and 75th percentiles; moreover the
threshold argument has no effect on the result of this method. -/
theorem detect_outliers_iqr_iff (df : Table) (t t' : ℚ) (i : Nat)
    (hne : numericPart df ≠ []) (hi : i < numRows (numericPart df)) :
    (rowAt (numericPart df) i ∈ rowsOf (detect_outliers df "iqr" t).outliers
      ↔ ∃ c ∈ numericPart df,
          c.2.getD i 0 < quantile c.2 (1 / 4)
              - 3 / 2 * (quantile c.2 (3 / 4) - quantile c.2 (1 / 4))
          ∨ quantile c.2 (3 / 4)
              + 3 / 2 * (quantile c.2 (3 / 4) - quantile c.2 (1 / 4))
              < c.2.getD i 0)
    ∧ detect_outliers df "iqr" t = detect_outliers df "iqr" t' := by
  constructor
  · rw [detect_outliers_iqr_eq]
    rw [mem_rows_anyFlag _ _ hne i hi]
    simp only [iqrFlag, Bool.or_eq_true, decide_eq_true_eq]
  · rw [detect_outliers_iqr_eq, detect_outliers_iqr_eq]

/-- Witness for C2 on the specification table dfW: the hypotheses hold, row
4 is characterised by the IQR fences as stated, and thresholds 3 and -7
give the same result. -/
theorem detect_outliers_iqr_iff_witness :
    numericPart dfW ≠ [] ∧ 4 < numRows (numericPart dfW) ∧
      ((rowAt (numericPart dfW) 4
          ∈ rowsOf (detect_outliers dfW "iqr" 3).outliers
        ↔ ∃ c ∈ numericPart dfW,
            c.2.getD 4 0 < quantile c.2 (1 / 4)
                - 3 / 2 * (quantile c.2 (3 / 4) - quantile c.2 (1 / 4))
            ∨ quantile c.2 (3 / 4)
                + 3 / 2 * (quantile c.2 (3 / 4) - quantile c.2 (1 / 4))
                < c.2.getD 4 0)
      ∧ detect_outliers dfW "iqr" 3 = detect_outliers dfW "iqr" (-7)) :=
  ⟨by decide, by decide,
    detect_outliers_iqr_iff dfW 3 (-7) 4 (by decide) (by decide)⟩

/-- C6: for every method string other than zscore and iqr, detect_outliers
raises no exception (the model is total): it prints the diagnostic on the
error-reporting channel and returns the empty frame; the input table is not
mutated (the call is a pure function of df and the result carries no
reference into it). -/
theorem detect_outliers_unknown_method (df : Table) (m : String) (t : ℚ)
    (h1 : m ≠ "zscore") (h2 : m ≠ "iqr") :
    detect_outliers df m t = ⟨[], ["Invalid method. Use zscore or iqr. "]⟩ := by
  simp [detect_outliers, h1, h2]

/-- Witness for C6: the method string mahalanobis on the specification
table. -/
theorem detect_outliers_unknown_method_witness :
    detect_outliers dfW "mahalanobis" 3
      = ⟨[], ["Invalid method. Use zscore or iqr. "]⟩ :=
  detect_outliers_unknown_method dfW "mahalanobis" 3 (by decide) (by decide)

/-- C7: for every table, method and threshold, the result of detect_outliers
is a row-subset of the numeric subview: its column names are a sublist of
the numeric-subview column names (no column is added; the unknown-method
branch returns a frame with no columns at all) and every result row is a
row of the numeric subview (no row is added). The input table is never
mutated on any path: the model is a pure function of df, returning fresh
lists. -/
theorem detect_outliers_row_subset (df : Table) (m : String) (t : ℚ) :
    ((detect_outliers df m t).outliers.map Prod.fst).Sublist
        ((numericPart df).map Prod.fst)
    ∧ ∀ r ∈ rowsOf (detect_outliers df m t).outliers,
        r ∈ rowsOf (numericPart df) := by
  by_cases hz : m = "zscore"
  · subst hz
    rw [detect_outliers_zscore_eq]
    exact ⟨by simp [maskTable, List.map_map]; exact List.Sublist.refl _,
      maskTable_rows_subset _ _ (length_anyFlagMask _ _)⟩
  · by_cases hq : m = "iqr"
    · subst hq
      rw [detect_outliers_iqr_eq]
      exact ⟨by simp [maskTable, List.map_map]; exact List.Sublist.refl _,
        maskTable_rows_subset _ _ (length_anyFlagMask _ _)⟩
    · rw [detect_outliers_unknown_method df m t hz hq]
      exact ⟨List.nil_sublist _, by intro r hr; simp [rowsOf, numRows] at hr⟩

/-- C10: for both supported methods, the rows of the detect_outliers result
form a sublist of the rows of the numeric subview: flagged rows are emitted
in the same relative order as in the input table (the boolean row mask is
applied positionally). -/
theorem detect_outliers_rows_sublist (df : Table) (t : ℚ) :
    (rowsOf (detect_outliers df "zscore" t).outliers).Sublist
        (rowsOf (numericPart df))
    ∧ (rowsOf (detect_outliers df "iqr" t).outliers).Sublist
        (rowsOf (numericPart df)) := by
  constructor
  · rw [detect_outliers_zscore_eq]
    exact rowsOf_maskTable_sublist _ _ (length_anyFlagMask _ _)
  · rw [detect_outliers_iqr_eq]
    exact rowsOf_maskTable_sublist _ _ (length_anyFlagMask _ _)

/-! Helper lemmas and concrete instances for FeatureAnalyzer.feature_importance. -/

instance : IsTotal (String × ℚ) (fun a b => b.2 ≤ a.2) :=
  ⟨fun a b => le_total b.2 a.2⟩

instance : IsTrans (String × ℚ) (fun a b => b.2 ≤ a.2) :=
  ⟨fun a b c hab hbc => le_trans hbc hab⟩

lemma sortDesc_sorted (l : List (String × ℚ)) :
    List.Sorted (fun a b : String × ℚ => b.2 ≤ a.2) (sortDesc l) :=
  List.sorted_insertionSort _ l

lemma sortDesc_perm (l : List (String × ℚ)) : (sortDesc l).Perm l :=
  List.perm_insertionSort _ l

lemma mem_featureCols_isNum (df : Table) (t : String) :
    ∀ c ∈ featureCols df t, isNum c.2 = true := by
  intro c hc
  unfold featureCols at hc
  exact (List.mem_filter.mp (List.mem_filter.mp hc).1).2

lemma get_dummies_of_numeric (cols : Table)
    (h : ∀ c ∈ cols, isNum c.2 = true) :
    (get_dummies cols).length = cols.length := by
  induction cols with
  | nil => rfl
  | cons c cs ih =>
    obtain ⟨n, d⟩ := c
    cases d with
    | num vs =>
      have := ih (fun c hc => h c (List.mem_cons_of_mem _ hc))
      simp only [get_dummies, List.filterMap_cons, List.map_cons,
        List.flatten_cons, List.nil_append, List.length_append,
        List.length_cons] at this ⊢
      omega
    | cat vs => exact absurd (h (n, .cat vs) (by simp)) (by simp [isNum])

lemma get_dummies_ne_nil (cols : Table) (hne : cols ≠ [])
    (h : ∀ c ∈ cols, isNum c.2 = true) : get_dummies cols ≠ [] := by
  intro hnil
  have hlen := get_dummies_of_numeric cols h
  rw [hnil] at hlen
  exact hne (List.eq_nil_of_length_eq_zero hlen.symm)

/-- A concrete ensemble-regressor capability used by the witnesses: it
attributes the whole importance to the first feature. Its scores are
non-negative, sum to 1 on a non-empty feature set, number one per feature,
and do not consult the ambient entropy. -/
def firstLib : EnsembleLib where
  run := fun _ _ _ X _ =>
    match X with
    | [] => []
    | _ :: rest => 1 :: rest.map (fun _ => (0 : ℚ))
  run_length := by intro s m e X y; cases X <;> simp
  seeded_deterministic := by intro s m e e' X y; rfl

/-- A plain numeric regression table: one feature column and one numeric
target column. -/
def df3 : Table := [("x", .num [1, 2, 3, 4, 5]), ("y", .num [2, 4, 6, 8, 10])]

/-- A table with a categorical column, one numeric feature and a numeric
target. -/
def df4 : Table :=
  [("city", .cat ["a", "b", "a"]), ("x1", .num [1, 2, 3]), ("y", .num [2, 4, 6])]

def catVals : ColData → List String
  | .num _ => []
  | .cat vs => vs

/-- Modelled from the spec: the ranking length the claim predicts, namely
the number of numeric feature columns plus one one-hot indicator feature
per observed distinct value of each non-numeric column, the target
excluded. Stated from the claim wording, for comparison against what the
code computes. -/
def specFeatureCount (df : Table) (t : String) : Nat :=
  (df.filter (fun c => isNum c.2 && !(c.1 == t))).length
  + ((df.filter (fun c => !(isNum c.2) && !(c.1 == t))).map
      (fun c => (catVals c.2).dedup.length)).sum

/-! Claim theorems for FeatureAnalyzer.feature_importance. -/

/-- C5: each of the three precondition violations is a distinct reported
failure after which the operation aborts: the target column must exist,
its dtype must be numeric, and after removing the target a numeric feature
column must remain. In each case exactly the corresponding diagnostic is
printed, no ranking is produced (ranking = none, nothing is rendered,
None is returned, so there is no partial result), and the input table is
unchanged (the model is a pure function of df). -/
theorem feature_importance_preconditions (df : Table) (t : String)
    (lib : EnsembleLib) (e : Nat) :
    (t ∉ colNames df →
      feature_importance df t lib e
        = ⟨["Target Column " ++ t ++ " not founded in the dataset."],
            none, false, none⟩)
    ∧ (t ∈ colNames df → targetDtypeIsNum df t = false →
      feature_importance df t lib e
        = ⟨["Error: Target Column " ++ t ++ " must be numeric."],
            none, false, none⟩)
    ∧ (t ∈ colNames df → targetDtypeIsNum df t = true → featureCols df t = [] →
      feature_importance df t lib e
        = ⟨["Error: No numberic features founded for analysis"],
            none, false, none⟩) := by
  refine ⟨fun h1 => ?_, fun h1 h2 => ?_, fun h1 h2 h3 => ?_⟩
  · simp [feature_importance, h1]
  · simp [feature_importance, h1, h2]
  · simp [feature_importance, h1, h2, h3]

/-- Witness for C5, the NonNumericTarget scenario of the specification: the
target is the categorical column city of df4. -/
theorem feature_importance_preconditions_witness :
    ("city" ∈ colNames df4 ∧ targetDtypeIsNum df4 "city" = false)
    ∧ feature_importance df4 "city" firstLib 0
        = ⟨["Error: Target Column city must be numeric."], none, false, none⟩ :=
  ⟨⟨by decide, by decide⟩,
    (feature_importance_preconditions df4 "city" firstLib 0).2.1
      (by decide) (by decide)⟩

/-- C8: feature_importance is deterministic: because the source passes the
fixed seed random_state = 42 both to the train/test split and to the
ensemble model, the outcome does not depend on the ambient randomness the
library would draw on if a seed were absent; two calls on identical input
are identical. -/
theorem feature_importance_deterministic (df : Table) (t : String)
    (lib : EnsembleLib) (e1 e2 : Nat) :
    feature_importance df t lib e1 = feature_importance df t lib e2 := by
  unfold feature_importance
  by_cases h1 : t ∉ colNames df
  · simp only [if_pos h1]
  · simp only [if_neg h1]
    by_cases h2 : ¬ targetDtypeIsNum df t = true
    · simp only [if_pos h2]
    · simp only [if_neg h2]
      by_cases h3 : featureCols df t = [] ∨ nrows df = 0
      · simp only [if_pos h3]
      · simp only [if_neg h3]
        rw [lib.seeded_deterministic 42 42 e1 e2]

/-- Unfolding of the successful branch of feature_importance. -/
lemma feature_importance_success (df : Table) (t : String) (lib : EnsembleLib)
    (e : Nat) (h1 : t ∈ colNames df) (h2 : targetDtypeIsNum df t = true)
    (h3 : ¬ (featureCols df t = [] ∨ nrows df = 0)) :
    feature_importance df t lib e
      = ⟨[], some (sortDesc (((get_dummies (featureCols df t)).map Prod.fst).zip
            (lib.run (some 42) (some 42) e (get_dummies (featureCols df t))
              (targetVals df t)))), true, none⟩ := by
  simp [feature_importance, h1, h2, h3]

/-- Inversion: a computed ranking can only come from the successful branch,
and is the descending sort of the column/score pairs. -/
lemma ranking_some_inv (df : Table) (t : String) (lib : EnsembleLib) (e : Nat)
    (r : List (String × ℚ))
    (hr : (feature_importance df t lib e).ranking = some r) :
    ¬ (featureCols df t = [] ∨ nrows df = 0)
    ∧ r = sortDesc (((get_dummies (featureCols df t)).map Prod.fst).zip
        (lib.run (some 42) (some 42) e (get_dummies (featureCols df t))
          (targetVals df t))) := by
  unfold feature_importance at hr
  by_cases h1 : t ∉ colNames df
  · rw [if_pos h1] at hr; simp at hr
  · rw [if_neg h1] at hr
    by_cases h2 : ¬ targetDtypeIsNum df t = true
    · rw [if_pos h2] at hr; simp at hr
    · rw [if_neg h2] at hr
      by_cases h3 : featureCols df t = [] ∨ nrows df = 0
      · simp only [if_pos h3] at hr; simp at hr
      · simp only [if_neg h3] at hr
        simp only [Option.some.injEq] at hr
        exact ⟨h3, hr.symm⟩

/-- C3 counterexample: on a plain numeric table that passes every
precondition, the call returns None to its caller (ret = none, there is no
returned ImportanceRanking) and the component itself renders the chart
(chartShown = true), contradicting the claim that an ImportanceRanking is
returned and that rendering is not part of this component. -/
theorem feature_importance_returns_none_cex :
    (feature_importance df3 "y" firstLib 0).ret = none
    ∧ (feature_importance df3 "y" firstLib 0).chartShown = true := by decide

/-- C3 (amended): for every table and target column passing the
precondition checks, feature_importance computes an ordered ranking of
(feature, score) pairs sorted by descending importance score (the tie order
is left unspecified: the source sorts with the pandas default quicksort,
which is not stable), renders a bar chart of the head of that ranking
itself, and returns None to its caller rather than the ranking. -/
theorem feature_importance_amended (df : Table) (t : String)
    (lib : EnsembleLib) (e : Nat) (h1 : t ∈ colNames df)
    (h2 : targetDtypeIsNum df t = true)
    (h3 : ¬ (featureCols df t = [] ∨ nrows df = 0)) :
    ∃ r, (feature_importance df t lib e).ranking = some r
      ∧ List.Sorted (fun a b : String × ℚ => b.2 ≤ a.2) r
      ∧ (feature_importance df t lib e).chartShown = true
      ∧ (feature_importance df t lib e).ret = none := by
  rw [feature_importance_success df t lib e h1 h2 h3]
  exact ⟨_, rfl, sortDesc_sorted _, rfl, rfl⟩

/-- Witness for the amended C3 on the concrete table df3. -/
theorem feature_importance_amended_witness :
    ("y" ∈ colNames df3 ∧ targetDtypeIsNum df3 "y" = true
      ∧ ¬ (featureCols df3 "y" = [] ∨ nrows df3 = 0))
    ∧ (∃ r, (feature_importance df3 "y" firstLib 0).ranking = some r
        ∧ List.Sorted (fun a b : String × ℚ => b.2 ≤ a.2) r
        ∧ (feature_importance df3 "y" firstLib 0).chartShown = true
        ∧ (feature_importance df3 "y" firstLib 0).ret = none) :=
  ⟨⟨by decide, by decide, by decide⟩,
    feature_importance_amended df3 "y" firstLib 0
      (by decide) (by decide) (by decide)⟩

/-- C4 counterexample: on df4 (one categorical column city with two
distinct values, one numeric feature x1, numeric target y) the computed
ranking has exactly one entry, while the claim predicts one numeric
feature plus two one-hot indicator features, three entries: the source
restricts to numeric columns before calling get_dummies, so categorical
columns are dropped entirely and never one-hot encoded. -/
theorem feature_importance_onehot_cex :
    (feature_importance df4 "y" firstLib 0).ranking = some [("x1", 1)]
    ∧ specFeatureCount df4 "y" = 3
    ∧ ¬ ([(("x1" : String), (1 : ℚ))].length = specFeatureCount df4 "y") := by
  decide

/-- C4 (amended): feature_importance selects only the numeric columns
before encoding, so non-numeric columns are dropped entirely and
get_dummies is applied to an all-numeric frame, on which it is the
identity; consequently the number of (feature, score) pairs equals the
number of numeric feature columns excluding the target. -/
theorem feature_importance_ranking_length (df : Table) (t : String)
    (lib : EnsembleLib) (e : Nat) (h1 : t ∈ colNames df)
    (h2 : targetDtypeIsNum df t = true)
    (h3 : ¬ (featureCols df t = [] ∨ nrows df = 0)) :
    ∃ r, (feature_importance df t lib e).ranking = some r
      ∧ r.length = (df.filter (fun c => isNum c.2 && !(c.1 == t))).length := by
  rw [feature_importance_success df t lib e h1 h2 h3]
  refine ⟨_, rfl, ?_⟩
  rw [sortDesc, List.length_insertionSort, List.length_zip,
    List.length_map, lib.run_length, min_self,
    get_dummies_of_numeric _ (mem_featureCols_isNum df t)]
  unfold featureCols
  rw [List.filter_filter]
  exact congrArg List.length
    (List.filter_congr (fun c hc => by rw [Bool.and_comm]))

/-- Witness for the amended C4 on the concrete table df4: exactly one
numeric feature column (x1) remains, and the ranking has one entry. -/
theorem feature_importance_ranking_length_witness :
    ("y" ∈ colNames df4 ∧ targetDtypeIsNum df4 "y" = true
      ∧ ¬ (featureCols df4 "y" = [] ∨ nrows df4 = 0))
    ∧ (∃ r, (feature_importance df4 "y" firstLib 0).ranking = some r
        ∧ r.length
          = (df4.filter (fun c => isNum c.2 && !(c.1 == "y"))).length) :=
  ⟨⟨by decide, by decide, by decide⟩,
    feature_importance_ranking_length df4 "y" firstLib 0
      (by decide) (by decide) (by decide)⟩

/-- C9: whenever the external regressor reports non-negative per-feature
importances that sum to 1 on a non-empty feature set (the normalised
impurity-decrease scores the spec prescribes for the tree ensemble), every
score of the ranking feature_importance computes is non-negative and the
scores sum to exactly 1: the code passes the scores of the library through
unchanged, and sorting permutes them without altering the multiset. -/
theorem feature_importance_scores (df : Table) (t : String)
    (lib : EnsembleLib) (e : Nat)
    (hnn : ∀ s m e' X y, ∀ x ∈ lib.run s m e' X y, 0 ≤ x)
    (hsum : ∀ s m e' X y, X ≠ [] → (lib.run s m e' X y).sum = 1)
    (r : List (String × ℚ))
    (hr : (feature_importance df t lib e).ranking = some r) :
    (∀ p ∈ r, 0 ≤ p.2) ∧ (r.map Prod.snd).sum = 1 := by
  obtain ⟨h3, hrr⟩ := ranking_some_inv df t lib e r hr
  subst hrr
  set X := get_dummies (featureCols df t) with hX
  set scores := lib.run (some 42) (some 42) e X (targetVals df t) with hsc
  have hXne : X ≠ [] := by
    apply get_dummies_ne_nil _ _ (mem_featureCols_isNum df t)
    intro hnil
    exact h3 (Or.inl hnil)
  have hlen : scores.length = X.length := lib.run_length _ _ _ _ _
  have hperm := sortDesc_perm ((X.map Prod.fst).zip scores)
  constructor
  · intro p hp
    have hpz : p ∈ (X.map Prod.fst).zip scores := hperm.mem_iff.mp hp
    obtain ⟨a, b⟩ := p
    exact hnn _ _ _ _ _ b (List.of_mem_zip hpz).2
  · have hmap := hperm.map Prod.snd
    rw [hmap.sum_eq]
    rw [List.map_snd_zip _ _ (by rw [hlen, List.length_map])]
    exact hsum _ _ _ _ _ hXne

/-- Witness for C9: the concrete library firstLib satisfies the score
hypotheses, and on df3 the produced ranking is [(x, 1)], whose scores are
non-negative and sum to 1. -/
theorem feature_importance_scores_witness :
    (feature_importance df3 "y" firstLib 0).ranking
        = some [(("x" : String), (1 : ℚ))]
    ∧ ((∀ p ∈ [(("x" : String), (1 : ℚ))], 0 ≤ p.2)
        ∧ (([(("x" : String), (1 : ℚ))]).map Prod.snd).sum = 1) :=
  ⟨by decide,
    feature_importance_scores df3 "y" firstLib 0
      (by
        intro s m e' X y x hx
        cases X with
        | nil => simp [firstLib] at hx
        | cons a rest =>
          simp only [firstLib] at hx
          rcases List.mem_cons.mp hx with h | h
          · subst h; norm_num
          · obtain ⟨b, -, hb⟩ := List.mem_map.mp h
            rw [← hb])
      (by
        intro s m e' X y hX
        cases X with
        | nil => exact absurd rfl hX
        | cons a rest =>
          simp only [firstLib, List.sum_cons]
          have hz : (rest.map (fun _ => (0 : ℚ))).sum = 0 :=
            List.sum_eq_zero (by
              intro x hx
              obtain ⟨b, -, hb⟩ := List.mem_map.mp hx
              exact hb.symm)
          rw [hz]
          norm_num)
      [(("x" : String), (1 : ℚ))] (by decide)⟩

end DA
